import Mathlib

/-!
Shallow embedding of the finance-tracker expense store (`index.js`, `db.js`,
`utils.js`) and proofs about its operations.

Modelling conventions:
* JS numbers carrying money amounts are modelled as `Rat` (every amount the
  program accepts is a finite number; `isValidAmount` rejects `Infinity`/`NaN`,
  which have no counterpart in `Rat`).
* The SQLite table `expenses` is modelled as a `Store`: a list of rows plus the
  `AUTOINCREMENT` sequence counter (`seq` is the next id to be assigned; SQLite's
  `AUTOINCREMENT` guarantees fresh ids strictly above every id ever assigned).
* SQL `TEXT` comparison on dates (`date >= ?`, `date <= ?`) is byte-wise, which
  on the `YYYY-MM-DD` ASCII strings stored here coincides with the
  lexicographic `≤` of `String`.
* Throwing JS functions are modelled in `Except String`; operations that may
  mutate the store return the store they leave behind, the error path leaving
  it untouched exactly when the source throws before any `db.run`.
-/

namespace Finance

/-- Embedding of JS `String.prototype.toLowerCase()` as used on the ASCII
category strings (`Char.toLower` lowercases exactly the ASCII letters). -/
def jsToLower (s : String) : String := String.mk (s.data.map Char.toLower)

/-- Embedding of JS `String.prototype.trim()`: strip leading and trailing
whitespace. -/
def jsTrim (s : String) : String :=
  String.mk (((s.data.dropWhile Char.isWhitespace).reverse.dropWhile
    Char.isWhitespace).reverse)

/-- Byte-wise (`memcmp`-style) `≤` on character lists, the comparison SQLite
applies to `TEXT` values in `date >= ?` / `date <= ?` filters; on the ASCII
`YYYY-MM-DD` strings stored here it is lexicographic order. -/
def lexLe : List Char → List Char → Bool
  | [], _ => true
  | _ :: _, [] => false
  | a :: as, b :: bs =>
      if a.toNat < b.toNat then true
      else if b.toNat < a.toNat then false
      else lexLe as bs

/-- SQLite `TEXT` comparison `a <= b` on strings. -/
def strLe (a b : String) : Bool := lexLe a.data b.data

/-- `VALID_CATEGORIES` from `db.js`. -/
def VALID_CATEGORIES : List String :=
  ["food", "transport", "entertainment", "bills", "shopping",
   "health", "education", "travel", "savings", "other"]

/-- `isValidCategory` from `db.js`: membership of the lowercased input in
`VALID_CATEGORIES` (string inputs; the dynamically-typed behaviour on
non-strings is modelled separately by `isValidCategoryJS`). -/
def isValidCategory (category : String) : Bool :=
  VALID_CATEGORIES.contains (jsToLower category)

/-- `isValidAmount` from `db.js`: a finite number strictly greater than zero.
On the `Rat` model the `typeof`/`isFinite` checks are inherent. -/
def isValidAmount (amount : Rat) : Bool :=
  0 < amount

/-- Gregorian leap-year rule, as used by the JS `Date` calendar. -/
def isLeapYear (y : Nat) : Bool :=
  (y % 4 == 0 && y % 100 != 0) || (y % 400 == 0)

/-- Number of days of month `m` (1-12) in year `y`, as computed by
`new Date(year, month, 0).getDate()` in `index.js`. -/
def daysInMonth (y m : Nat) : Nat :=
  if m == 2 then (if isLeapYear y then 29 else 28)
  else if m == 4 || m == 6 || m == 9 || m == 11 then 30
  else 31

/-- Numeric value of a decimal digit character. -/
def digitVal (c : Char) : Nat := c.toNat - 48

/-- The regex `^\d{4}-\d{2}-\d{2}$` of `isValidDate` (`db.js`), over the
character list of the string. -/
def datePatternChars : List Char → Bool
  | [y1, y2, y3, y4, h1, m1, m2, h2, d1, d2] =>
      y1.isDigit && y2.isDigit && y3.isDigit && y4.isDigit && h1 == '-' &&
      m1.isDigit && m2.isDigit && h2 == '-' && d1.isDigit && d2.isDigit
  | _ => false

/-- The regex test of `isValidDate` on a string. -/
def datePattern (s : String) : Bool := datePatternChars s.data

/-- Extract `(year, month, day)` from a character list matching
`datePatternChars`. -/
def parseYMDChars : List Char → Option (Nat × Nat × Nat)
  | [y1, y2, y3, y4, h1, m1, m2, h2, d1, d2] =>
      if datePatternChars [y1, y2, y3, y4, h1, m1, m2, h2, d1, d2] then
        some (digitVal y1 * 1000 + digitVal y2 * 100 + digitVal y3 * 10 + digitVal y4,
              digitVal m1 * 10 + digitVal m2,
              digitVal d1 * 10 + digitVal d2)
      else none
  | _ => none

/-- Extract `(year, month, day)` from a string matching `datePattern`. -/
def parseYMD (s : String) : Option (Nat × Nat × Nat) :=
  parseYMDChars s.data

/-- Whether `(y, m, d)` denotes a real calendar date (month in range, day in
range for that month of that year). -/
def isRealDate (y m d : Nat) : Bool :=
  1 ≤ m && m ≤ 12 && 1 ≤ d && d ≤ daysInMonth y m

/-- `isValidDate` from `db.js`: the regex test plus the `Date` round-trip check
`dateString === date.toISOString().split('T')[0]`.  For a string matching the
fixed-width pattern, the JS round-trip succeeds exactly when the three parsed
numbers form a real calendar date (a non-date such as `2024-13-01` or
`2024-02-30` either fails to parse or re-prints differently). -/
def isValidDate (dateString : String) : Bool :=
  match parseYMD dateString with
  | some (y, m, d) => isRealDate y m d
  | none => false

/-- A row of the `expenses` table (`db.js`, `initializeDatabase`). -/
structure Expense where
  id : Nat
  amount : Rat
  category : String
  description : String
  date : String
  created_at : String
deriving DecidableEq

/-- The `expenses` table together with its `AUTOINCREMENT` sequence: `seq` is
the next id to assign, kept strictly above every id ever assigned (SQLite
`AUTOINCREMENT` semantics — ids are monotone and never reused). -/
structure Store where
  rows : List Expense
  seq : Nat
deriving DecidableEq

/-- Well-formedness the SQLite engine maintains: every stored id is below the
sequence counter. -/
def Store.WF (st : Store) : Prop := ∀ r ∈ st.rows, r.id < st.seq

/-- `INSERT INTO expenses (amount, category, description, date) VALUES (?,?,?,?)`:
a fresh `AUTOINCREMENT` id and the `created_at` default (`datetime('now')`,
passed in as `now`). -/
def Store.insert (st : Store) (amount : Rat)
    (category description date now : String) : Store :=
  { rows := st.rows ++
      [{ id := st.seq, amount := amount, category := category,
         description := description, date := date, created_at := now }],
    seq := st.seq + 1 }

/-- `SELECT * FROM expenses WHERE id = ?` (ids are unique, so the first match
is the row). -/
def selectById (rows : List Expense) (id : Nat) : Option Expense :=
  rows.find? (fun r => r.id == id)

/-- `ORDER BY date DESC, id DESC` of `getExpenses`: `b` may follow `a`. -/
def newestFirst (a b : Expense) : Prop :=
  strLe b.date a.date = true ∧ (a.date = b.date → b.id ≤ a.id)

instance : DecidableRel newestFirst := fun a b => by
  unfold newestFirst; infer_instance

/-- `ORDER BY id DESC`: `b` may follow `a`. -/
def byIdDesc (a b : Expense) : Prop := b.id ≤ a.id

instance : DecidableRel byIdDesc := fun a b => by
  unfold byIdDesc; infer_instance

/-- `SELECT * FROM expenses ORDER BY id DESC LIMIT 1`, the re-read of
`addExpense`. -/
def selectMaxId (rows : List Expense) : Option Expense :=
  (rows.insertionSort byIdDesc).head?

/-- SQL `LIMIT ?`: a negative limit means "no limit" in SQLite. -/
def sqlLimit (limit : Int) (xs : List Expense) : List Expense :=
  if limit < 0 then xs else xs.take limit.toNat

/-- Result object of `addExpense`. -/
structure AddResult where
  message : String
  expense : Option Expense
deriving DecidableEq

/-- The message `Invalid category. Must be one of: ${VALID_CATEGORIES.join(', ')}`. -/
def categoryErrMsg : String :=
  "Invalid category. Must be one of: " ++ String.intercalate ", " VALID_CATEGORIES

/-- Tool 1, `addExpense` (`index.js` 92-128): validate the four fields, insert
with the category lowercased and the description trimmed, save, then re-read
the newest row (`ORDER BY id DESC LIMIT 1`). -/
def addExpense (st : Store) (amount : Rat)
    (category description date now : String) :
    Except String (AddResult × Store) :=
  if ¬ isValidAmount amount then
    .error "Amount must be a positive number"
  else if ¬ isValidCategory category then
    .error categoryErrMsg
  else if ¬ isValidDate date then
    .error "Invalid date format. Use YYYY-MM-DD"
  else if description = "" ∨ jsTrim description = "" then
    .error "Description cannot be empty"
  else
    let st' := st.insert amount (jsToLower category) (jsTrim description) date now
    .ok ({ message := "Expense added successfully",
           expense := selectMaxId st'.rows }, st')

/-- Result object of `getExpenses`. -/
structure GetExpensesResult where
  count : Nat
  expenses : List Expense
deriving DecidableEq

/-- JS truthiness of an optional string argument: `if (startDate)` runs the
branch only for a present, non-empty string. -/
def truthy : Option String → Bool
  | none => false
  | some s => s ≠ ""

/-- The `date >= ?` term appended for a truthy `startDate`. -/
def startTerm (s : String) (r : Expense) : Bool := strLe s r.date

/-- The `date <= ?` term appended for a truthy `endDate`. -/
def endTerm (s : String) (r : Expense) : Bool := strLe r.date s

/-- The `category = ?` term appended for a truthy `category` (bound to the
lowercased argument). -/
def catTerm (s : String) (r : Expense) : Bool := r.category == jsToLower s

/-- Validation and `WHERE`-term accumulation for `startDate` in `getExpenses`. -/
def buildStart (startDate : Option String) :
    Except String (List (Expense → Bool)) :=
  match startDate with
  | none => .ok []
  | some s =>
      if s = "" then .ok []
      else if ¬ isValidDate s then .error "Invalid start date format. Use YYYY-MM-DD"
      else .ok [startTerm s]

/-- Validation and `WHERE`-term accumulation for `endDate` in `getExpenses`. -/
def buildEnd (endDate : Option String) :
    Except String (List (Expense → Bool)) :=
  match endDate with
  | none => .ok []
  | some s =>
      if s = "" then .ok []
      else if ¬ isValidDate s then .error "Invalid end date format. Use YYYY-MM-DD"
      else .ok [endTerm s]

/-- Validation and `WHERE`-term accumulation for `category` in `getExpenses`. -/
def buildCat (category : Option String) :
    Except String (List (Expense → Bool)) :=
  match category with
  | none => .ok []
  | some s =>
      if s = "" then .ok []
      else if ¬ isValidCategory s then .error categoryErrMsg
      else .ok [catTerm s]

/-- `WHERE 1=1 AND ...`: a row passes when every accumulated term holds. -/
def passesAll (conds : List (Expense → Bool)) (r : Expense) : Bool :=
  conds.all (fun c => c r)

/-- Tool 2, `getExpenses` (`index.js` 134-176): conditionally append filter
terms (each validated when truthy), then
`ORDER BY date DESC, id DESC LIMIT ?`.  An absent `limit` defaults to 100. -/
def getExpenses (st : Store) (startDate endDate category : Option String)
    (limit : Option Int) : Except String GetExpensesResult :=
  match buildStart startDate with
  | .error e => .error e
  | .ok c1 =>
    match buildEnd endDate with
    | .error e => .error e
    | .ok c2 =>
      match buildCat category with
      | .error e => .error e
      | .ok c3 =>
        let matched := st.rows.filter (passesAll (c1 ++ c2 ++ c3))
        let ordered := matched.insertionSort newestFirst
        let limited := sqlLimit (limit.getD 100) ordered
        .ok { count := limited.length, expenses := limited }

/-- `toFixed(2)` of a (nonnegative) JS number: round to the nearest hundredth,
ties upward. -/
def toFixed2 (q : Rat) : Rat := (round (q * 100) : Int) / 100

/-- One output row of `getSpendingByCategory` (`GROUP BY category` plus the
added `percentage`). -/
structure CategoryStat where
  category : String
  transaction_count : Nat
  total_amount : Rat
  average_amount : Rat
  min_amount : Rat
  max_amount : Rat
  percentage : Rat
deriving DecidableEq

/-- Sum of the amounts of a list of rows (`SUM(amount)` over a nonempty group). -/
def sumAmounts (rows : List Expense) : Rat := (rows.map (·.amount)).sum

/-- `MIN(amount)` over a group (`0` unreachable: groups are nonempty). -/
def minAmount (rows : List Expense) : Rat :=
  match rows with
  | [] => 0
  | r :: rs => rs.foldl (fun acc x => min acc x.amount) r.amount

/-- `MAX(amount)` over a group (`0` unreachable: groups are nonempty). -/
def maxAmount (rows : List Expense) : Rat :=
  match rows with
  | [] => 0
  | r :: rs => rs.foldl (fun acc x => max acc x.amount) r.amount

/-- The distinct categories of a row list, in first-occurrence order
(the `GROUP BY category` keys). -/
def groupKeys (rows : List Expense) : List String :=
  (rows.map (·.category)).dedup

/-- The aggregate row `GROUP BY category` produces for key `c` (without the
percentage, which `getSpendingByCategory` adds afterwards). -/
def groupStat (rows : List Expense) (c : String) : CategoryStat :=
  let g := rows.filter (fun r => r.category == c)
  { category := c
    transaction_count := g.length
    total_amount := sumAmounts g
    average_amount := sumAmounts g / g.length
    min_amount := minAmount g
    max_amount := maxAmount g
    percentage := 0 }

/-- `ORDER BY total_amount DESC` on aggregate rows. -/
def byTotalDesc (a b : CategoryStat) : Prop := b.total_amount ≤ a.total_amount

instance : DecidableRel byTotalDesc := fun a b => by
  unfold byTotalDesc; infer_instance

/-- Result object of `getSpendingByCategory`. -/
structure SpendingByCategoryResult where
  total_spending : Rat
  categories : List CategoryStat
deriving DecidableEq

/-- Tool 3, `getSpendingByCategory` (`index.js` 182-233): aggregate the
date-filtered rows per category, order by summed amount descending, total the
group sums, and attach `percentage = toFixed2(group/total*100)` guarded
against a zero total. -/
def getSpendingByCategory (st : Store) (startDate endDate : Option String) :
    Except String SpendingByCategoryResult :=
  match buildStart startDate with
  | .error e => .error e
  | .ok c1 =>
    match buildEnd endDate with
    | .error e => .error e
    | .ok c2 =>
      let matched := st.rows.filter (passesAll (c1 ++ c2))
      let breakdown :=
        ((groupKeys matched).map (groupStat matched)).insertionSort byTotalDesc
      let totalSpending := (breakdown.map (·.total_amount)).sum
      let withPct := breakdown.map (fun cat =>
        { cat with percentage :=
            if 0 < totalSpending then
              toFixed2 (cat.total_amount / totalSpending * 100)
            else 0 })
      .ok { total_spending := totalSpending, categories := withPct }

/-- One row of the monthly category breakdown (`getMonthlySummary`). -/
structure MonthCatRow where
  category : String
  transaction_count : Nat
  total_amount : Rat
deriving DecidableEq

/-- `ORDER BY total_amount DESC` on monthly category rows. -/
def monthCatDesc (a b : MonthCatRow) : Prop := b.total_amount ≤ a.total_amount

instance : DecidableRel monthCatDesc := fun a b => by
  unfold monthCatDesc; infer_instance

/-- One row of the daily-spending breakdown (`getMonthlySummary`). -/
structure DailyRow where
  date : String
  transaction_count : Nat
  total_amount : Rat
deriving DecidableEq

/-- `ORDER BY date ASC` on daily rows (SQLite `TEXT` comparison). -/
def byDateAsc (a b : DailyRow) : Prop := strLe a.date b.date = true

instance : DecidableRel byDateAsc := fun a b => by
  unfold byDateAsc; infer_instance

/-- The distinct dates of a row list, in first-occurrence order
(the `GROUP BY date` keys). -/
def dayKeys (rows : List Expense) : List String :=
  (rows.map (·.date)).dedup

/-- Result object of `getMonthlySummary`. -/
structure MonthlySummaryResult where
  month : String
  year : Nat
  period : String
  total_transactions : Nat
  total_spending : Rat
  average_transaction : Rat
  category_breakdown : List MonthCatRow
  daily_spending : List DailyRow
deriving DecidableEq

/-- `getMonthName` from `utils.js`. -/
def getMonthName (month : Nat) : String :=
  (["January", "February", "March", "April", "May", "June", "July",
    "August", "September", "October", "November", "December"]).getD
    (month - 1) "Unknown"

/-- `String(month).padStart(2, '0')`. -/
def padStart2 (s : String) : String :=
  if s.length < 2 then "0" ++ s else s

/-- The first day of the queried month, `${year}-${pad(month)}-01`. -/
def monthStart (year month : Nat) : String :=
  toString year ++ "-" ++ padStart2 (toString month) ++ "-01"

/-- The last day of the queried month,
`${year}-${pad(month)}-${pad(new Date(year, month, 0).getDate())}`. -/
def monthEnd (year month : Nat) : String :=
  toString year ++ "-" ++ padStart2 (toString month) ++ "-" ++
    padStart2 (toString (daysInMonth year month))

/-- Tool 4, `getMonthlySummary` (`index.js` 239-313): validate year and month
(`!year` / `!month` make `0` fail first), compute the month's date range, and
aggregate totals, a category breakdown (summed amount descending) and a daily
breakdown (date ascending).  On an empty month `SUM`/`AVG` are `NULL`, which
`|| 0` turns into `0`. -/
def getMonthlySummary (st : Store) (year month : Nat) :
    Except String MonthlySummaryResult :=
  if year = 0 ∨ year < 2000 ∨ year > 2100 then
    .error "Invalid year. Must be between 2000 and 2100"
  else if month = 0 ∨ month < 1 ∨ month > 12 then
    .error "Invalid month. Must be between 1 and 12"
  else
    let startDate := monthStart year month
    let endDate := monthEnd year month
    let matched := st.rows.filter (fun r =>
      strLe startDate r.date && strLe r.date endDate)
    let catRows := ((groupKeys matched).map (fun c =>
      let g := matched.filter (fun r => r.category == c)
      ({ category := c, transaction_count := g.length,
         total_amount := sumAmounts g } : MonthCatRow))).insertionSort monthCatDesc
    let dayRows := ((dayKeys matched).map (fun d =>
      let g := matched.filter (fun r => r.date == d)
      ({ date := d, transaction_count := g.length,
         total_amount := sumAmounts g } : DailyRow))).insertionSort byDateAsc
    .ok { month := getMonthName month
          year := year
          period := startDate ++ " to " ++ endDate
          total_transactions := matched.length
          total_spending := if matched.isEmpty then 0 else sumAmounts matched
          average_transaction :=
            if matched.isEmpty then 0 else sumAmounts matched / matched.length
          category_breakdown := catRows
          daily_spending := dayRows }

/-- The not-found message `Expense with ID ${id} not found`. -/
def notFoundMsg (id : Nat) : String :=
  "Expense with ID " ++ toString id ++ " not found"

/-- The empty-update message of `updateExpense`. -/
def emptyUpdateMsg : String :=
  "No fields to update. Provide at least one field: amount, category, description, or date"

/-- Tool 5, `updateExpense` (`index.js` 319-384): require the row to exist,
validate each supplied field and collect its change, reject an empty change
set, apply the `UPDATE ... WHERE id = ?`, and re-read the row.  The store is
returned alongside; every error is thrown before `db.run`, leaving it
untouched. -/
def updateExpense (st : Store) (id : Nat) (amount : Option Rat)
    (category description date : Option String) :
    Except String (Option Expense) × Store :=
  match selectById st.rows id with
  | none => (.error (notFoundMsg id), st)
  | some _ =>
      let updAmount : Except String (List (Expense → Expense)) :=
        match amount with
        | none => .ok []
        | some a =>
            if ¬ isValidAmount a then .error "Amount must be a positive number"
            else .ok [fun r => { r with amount := a }]
      let updCategory : Except String (List (Expense → Expense)) :=
        match category with
        | none => .ok []
        | some c =>
            if ¬ isValidCategory c then .error categoryErrMsg
            else .ok [fun r => { r with category := jsToLower c }]
      let updDescription : Except String (List (Expense → Expense)) :=
        match description with
        | none => .ok []
        | some d =>
            if jsTrim d = "" then .error "Description cannot be empty"
            else .ok [fun r => { r with description := jsTrim d }]
      let updDate : Except String (List (Expense → Expense)) :=
        match date with
        | none => .ok []
        | some dt =>
            if ¬ isValidDate dt then .error "Invalid date format. Use YYYY-MM-DD"
            else .ok [fun r => { r with date := dt }]
      match updAmount, updCategory, updDescription, updDate with
      | .ok u1, .ok u2, .ok u3, .ok u4 =>
          let updates := u1 ++ u2 ++ u3 ++ u4
          if updates.isEmpty then (.error emptyUpdateMsg, st)
          else
            let st' : Store :=
              { st with rows := st.rows.map (fun r =>
                  if r.id == id then updates.foldl (fun acc u => u acc) r else r) }
            (.ok (selectById st'.rows id), st')
      | .error e, _, _, _ => (.error e, st)
      | _, .error e, _, _ => (.error e, st)
      | _, _, .error e, _ => (.error e, st)
      | _, _, _, .error e => (.error e, st)

/-- Tool 6, `deleteExpense` (`index.js` 390-410): require the row to exist,
`DELETE FROM expenses WHERE id = ?`, and return the prior state of the row.
The not-found error is thrown before the `DELETE`, leaving the store
untouched. -/
def deleteExpense (st : Store) (id : Nat) : Except String Expense × Store :=
  match selectById st.rows id with
  | none => (.error (notFoundMsg id), st)
  | some e => (.ok e, { st with rows := st.rows.filter (fun r => ¬ r.id == id) })

/-- A store-mutating request in a client session: an add (with its argument
bag) or a delete by id. -/
inductive StoreOp where
  | add (amount : Rat) (category description date now : String)
  | del (id : Nat)

/-- Apply one operation to the store; a failed operation leaves the store as
the operation left it (errors are thrown before any mutation). -/
def applyOp (st : Store) : StoreOp → Store
  | .add a c d dt now =>
      match addExpense st a c d dt now with
      | .ok (_, st') => st'
      | .error _ => st
  | .del i => (deleteExpense st i).2

/-- Run a whole sequence of operations. -/
def execOps (st : Store) : List StoreOp → Store
  | [] => st
  | op :: ops => execOps (applyOp st op) ops

/-- The ids handed out by the successful adds of a sequence, in order. -/
def assignedIds (st : Store) : List StoreOp → List Nat
  | [] => []
  | op :: ops =>
      match op with
      | .add a c d dt now =>
          match addExpense st a c d dt now with
          | .ok (_, st') => st.seq :: assignedIds st' ops
          | .error _ => assignedIds st ops
      | .del i => assignedIds ((deleteExpense st i).2) ops

/-- A dynamically-typed JS value handed to `isValidCategory` through the
untyped MCP argument bag. -/
inductive JSValue where
  | str (s : String)
  | num (n : Rat)
  | bool (b : Bool)
  | null
  | object

/-- A raised JS error: either a `TypeError` raised by the runtime or an
`Error` thrown by the program with `throw new Error(...)`. -/
inductive JSError where
  | typeError (message : String)
  | error (message : String)
deriving DecidableEq

/-- The member call `category.toLowerCase()` on a dynamic value: only strings
have the method; on `null` the property access itself throws, on every other
value the property is `undefined` and the call throws — a `TypeError` either
way. -/
def jsToLowerCase : JSValue → Except JSError String
  | .str s => .ok (jsToLower s)
  | .null => .error (.typeError "Cannot read properties of null (reading 'toLowerCase')")
  | _ => .error (.typeError "category.toLowerCase is not a function")

/-- `isValidCategory` from `db.js` on a dynamic argument: the unconditional
`category.toLowerCase()` call happens before any membership test. -/
def isValidCategoryJS (category : JSValue) : Except JSError Bool := do
  let lc ← jsToLowerCase category
  .ok (VALID_CATEGORIES.contains lc)

/-- `addExpense` with its dynamically-typed `category` argument: identical to
`addExpense` except that the category validation step may itself raise a
`TypeError`, which propagates out of the operation. -/
def addExpenseJS (st : Store) (amount : Rat) (category : JSValue)
    (description date now : String) : Except JSError (AddResult × Store) :=
  if ¬ isValidAmount amount then
    .error (.error "Amount must be a positive number")
  else
    match isValidCategoryJS category with
    | .error e => .error e
    | .ok valid =>
        if ¬ valid then .error (.error categoryErrMsg)
        else
          match jsToLowerCase category with
          | .error e => .error e
          | .ok lc =>
              if ¬ isValidDate date then
                .error (.error "Invalid date format. Use YYYY-MM-DD")
              else if description = "" ∨ jsTrim description = "" then
                .error (.error "Description cannot be empty")
              else
                let st' := st.insert amount lc (jsTrim description) date now
                .ok ({ message := "Expense added successfully",
                       expense := selectMaxId st'.rows }, st')

/-! ### Character and digit lemmas -/

theorem char_eq_of_toNat_eq {c c' : Char} (h : c.toNat = c'.toNat) : c = c' :=
  Char.ofNat_toNat c ▸ Char.ofNat_toNat c' ▸ congrArg Char.ofNat h

theorem isDigit_toNat_bounds {c : Char} (h : c.isDigit = true) :
    48 ≤ c.toNat ∧ c.toNat ≤ 57 := by
  unfold Char.isDigit at h
  simp only [Bool.and_eq_true, decide_eq_true_eq] at h
  exact h

theorem digitVal_lt_ten {c : Char} (h : c.isDigit = true) : digitVal c < 10 := by
  have := isDigit_toNat_bounds h
  unfold digitVal
  omega

theorem digitChar_toNat {n : Nat} (h : n < 10) :
    (Nat.digitChar n).toNat = n + 48 := by
  revert n h
  decide

theorem digitChar_isDigit {n : Nat} (h : n < 10) :
    (Nat.digitChar n).isDigit = true := by
  revert n h
  decide

theorem digitChar_digitVal {c : Char} (h : c.isDigit = true) :
    Nat.digitChar (digitVal c) = c := by
  have hb := isDigit_toNat_bounds h
  apply char_eq_of_toNat_eq
  rw [digitChar_toNat (digitVal_lt_ten h)]
  unfold digitVal
  omega

theorem digitVal_digitChar {n : Nat} (h : n < 10) :
    digitVal (Nat.digitChar n) = n := by
  unfold digitVal
  rw [digitChar_toNat h]
  omega

/-! ### lexLe: order facts for the SQLite TEXT comparison -/

theorem lexLe_refl : ∀ l : List Char, lexLe l l = true
  | [] => rfl
  | a :: as => by simp [lexLe, lexLe_refl as]

theorem lexLe_total : ∀ a b : List Char, lexLe a b = true ∨ lexLe b a = true
  | [], _ => .inl rfl
  | _ :: _, [] => .inr rfl
  | a :: as, b :: bs => by
    by_cases hab : a.toNat < b.toNat
    · left; simp [lexLe, hab]
    · by_cases hba : b.toNat < a.toNat
      · right; simp [lexLe, hba, hab]
      · have := lexLe_total as bs
        rcases this with h | h
        · left; simp [lexLe, hab, hba, h]
        · right; simp [lexLe, hab, hba, h]

theorem lexLe_trans : ∀ a b c : List Char,
    lexLe a b = true → lexLe b c = true → lexLe a c = true
  | [], _, _, _, _ => rfl
  | a :: as, [], _, h, _ => by simp [lexLe] at h
  | a :: as, b :: bs, [], _, h => by simp [lexLe] at h
  | a :: as, b :: bs, c :: cs, h1, h2 => by
    simp only [lexLe] at h1 h2 ⊢
    split_ifs at h1 h2 ⊢
    all_goals first
      | rfl
      | exact absurd h1 Bool.false_ne_true
      | exact absurd h2 Bool.false_ne_true
      | exact lexLe_trans as bs cs h1 h2
      | (exfalso; omega)

theorem lexLe_antisymm : ∀ a b : List Char,
    lexLe a b = true → lexLe b a = true → a = b
  | [], [], _, _ => rfl
  | [], _ :: _, _, h => by simp [lexLe] at h
  | _ :: _, [], h, _ => by simp [lexLe] at h
  | a :: as, b :: bs, h1, h2 => by
    simp only [lexLe] at h1 h2
    split_ifs at h1 h2
    all_goals first
      | exact absurd h1 Bool.false_ne_true
      | exact absurd h2 Bool.false_ne_true
      | (exfalso; omega)
      | (have hab : a = b := char_eq_of_toNat_eq (by omega)
         subst hab
         rw [lexLe_antisymm as bs h1 h2])

theorem strLe_refl (s : String) : strLe s s = true := lexLe_refl s.data

theorem strLe_total (a b : String) : strLe a b = true ∨ strLe b a = true :=
  lexLe_total a.data b.data

theorem strLe_trans {a b c : String} (h1 : strLe a b = true)
    (h2 : strLe b c = true) : strLe a c = true :=
  lexLe_trans a.data b.data c.data h1 h2

theorem strLe_antisymm {a b : String} (h1 : strLe a b = true)
    (h2 : strLe b a = true) : a = b := by
  have := lexLe_antisymm a.data b.data h1 h2
  exact congrArg String.mk this

/-! ### Totality and transitivity of the ORDER BY relations -/

instance : IsTotal Expense byIdDesc := by
  constructor
  intro a b
  unfold byIdDesc
  omega

instance : IsTrans Expense byIdDesc := by
  constructor
  intro a b c h1 h2
  unfold byIdDesc at *
  omega

instance : IsTotal Expense newestFirst := by
  constructor
  intro a b
  rcases strLe_total a.date b.date with h | h
  · by_cases heq : a.date = b.date
    · rcases Nat.le_total a.id b.id with hid | hid
      · exact .inr ⟨heq ▸ strLe_refl _, fun _ => hid⟩
      · exact .inl ⟨heq ▸ strLe_refl _, fun _ => hid⟩
    · exact .inr ⟨h, fun h' => absurd h'.symm heq⟩
  · by_cases heq : a.date = b.date
    · rcases Nat.le_total a.id b.id with hid | hid
      · exact .inr ⟨heq ▸ strLe_refl _, fun _ => hid⟩
      · exact .inl ⟨heq ▸ strLe_refl _, fun _ => hid⟩
    · exact .inl ⟨h, fun h' => absurd h' heq⟩

instance : IsTrans Expense newestFirst := by
  constructor
  intro a b c ⟨hab, hab'⟩ ⟨hbc, hbc'⟩
  refine ⟨strLe_trans hbc hab, fun hac => ?_⟩
  have hb : b.date = a.date := strLe_antisymm hab (hac ▸ hbc)
  have h1 := hab' hb.symm
  have h2 := hbc' (hb.trans hac)
  omega

instance : IsTotal CategoryStat byTotalDesc := by
  constructor
  intro a b
  unfold byTotalDesc
  exact (le_total a.total_amount b.total_amount).symm

instance : IsTrans CategoryStat byTotalDesc := by
  constructor
  intro a b c h1 h2
  unfold byTotalDesc at *
  exact le_trans h2 h1

instance : IsTotal MonthCatRow monthCatDesc := by
  constructor
  intro a b
  unfold monthCatDesc
  exact (le_total a.total_amount b.total_amount).symm

instance : IsTrans MonthCatRow monthCatDesc := by
  constructor
  intro a b c h1 h2
  unfold monthCatDesc at *
  exact le_trans h2 h1

instance : IsTotal DailyRow byDateAsc :=
  ⟨fun a b => strLe_total a.date b.date⟩

instance : IsTrans DailyRow byDateAsc :=
  ⟨fun _ _ _ h1 h2 => strLe_trans h1 h2⟩

/-! ### Store and query lemmas -/

/-- The head of the `ORDER BY id DESC` sort of `rows ++ [e]` is `e` whenever
`e`'s id dominates every id in `rows`. -/
theorem selectMaxId_append (rows : List Expense) (e : Expense)
    (hmax : ∀ x ∈ rows, x.id < e.id) : selectMaxId (rows ++ [e]) = some e := by
  unfold selectMaxId
  have hperm := List.perm_insertionSort byIdDesc (rows ++ [e])
  have hsorted := List.sorted_insertionSort byIdDesc (rows ++ [e])
  have hmem : e ∈ (rows ++ [e]).insertionSort byIdDesc :=
    hperm.mem_iff.mpr (by simp)
  rcases hcase : (rows ++ [e]).insertionSort byIdDesc with _ | ⟨h, t⟩
  · rw [hcase] at hmem
    simp at hmem
  · rw [hcase] at hmem hsorted hperm
    rcases List.mem_cons.mp hmem with rfl | het
    · rfl
    · have hrel : byIdDesc h e := List.rel_of_sorted_cons hsorted e het
      have hh : h ∈ rows ++ [e] := hperm.mem_iff.mp (List.mem_cons_self h t)
      rcases List.mem_append.mp hh with hh | hh
      · exact absurd hrel (by have := hmax h hh; unfold byIdDesc; omega)
      · simp only [List.mem_singleton] at hh
        subst hh
        rfl

/-- `find?` over a list whose earlier elements all fail the predicate finds
the appended element. -/
theorem find?_append_singleton {p : Expense → Bool} {rows : List Expense}
    {e : Expense} (hnone : ∀ x ∈ rows, p x = false) (he : p e = true) :
    (rows ++ [e]).find? p = some e := by
  induction rows with
  | nil => simp [List.find?, he]
  | cons r rs ih =>
      have hr := hnone r (by simp)
      simp only [List.cons_append, List.find?, hr]
      exact ih (fun x hx => hnone x (by simp [hx]))

/-! ### Group-by partition lemmas -/

theorem sum_map_ite_mem {ks : List String} (hk : ks.Nodup) {c : String}
    (hc : c ∈ ks) (f : String → Rat) (a : Rat) :
    (ks.map fun k => if c = k then a + f k else f k).sum = a + (ks.map f).sum := by
  induction ks with
  | nil => simp at hc
  | cons k ks ih =>
    rcases List.mem_cons.mp hc with rfl | hc'
    · have hnot : c ∉ ks := (List.nodup_cons.mp hk).1
      simp only [List.map_cons, List.sum_cons]
      have hrest : (ks.map fun k' => if c = k' then a + f k' else f k').sum
          = (ks.map f).sum := by
        congr 1
        apply List.map_congr_left
        intro x hx
        have hne : c ≠ x := by
          rintro rfl
          exact hnot hx
        rw [if_neg hne]
      rw [hrest]
      split_ifs with h
      · ring
      · simp at h
    · have hk' := (List.nodup_cons.mp hk).2
      have hne : c ≠ k := by
        rintro rfl
        exact (List.nodup_cons.mp hk).1 hc'
      simp only [List.map_cons, List.sum_cons, if_neg hne]
      rw [ih hk' hc']
      ring

/-- The group sums over any duplicate-free key list covering all rows add up
to the total sum: `GROUP BY` partitions the matched rows. -/
theorem sum_groups {rows : List Expense} {ks : List String} (hk : ks.Nodup)
    (hcov : ∀ r ∈ rows, r.category ∈ ks) :
    (ks.map fun c => sumAmounts (rows.filter fun x => x.category == c)).sum
      = sumAmounts rows := by
  induction rows with
  | nil =>
    simp only [List.filter_nil]
    rw [List.sum_eq_zero]
    · simp [sumAmounts]
    · intro x hx
      rcases List.mem_map.mp hx with ⟨c, _, rfl⟩
      simp [sumAmounts]
  | cons r rs ih =>
    have hcr : r.category ∈ ks := hcov r (by simp)
    have hcov' : ∀ x ∈ rs, x.category ∈ ks := fun x hx => hcov x (by simp [hx])
    calc (ks.map fun c => sumAmounts ((r :: rs).filter fun x => x.category == c)).sum
        = (ks.map fun c =>
            if r.category = c then
              r.amount + sumAmounts (rs.filter fun x => x.category == c)
            else sumAmounts (rs.filter fun x => x.category == c)).sum := by
          congr 1
          apply List.map_congr_left
          intro c _
          by_cases h : r.category = c
          · simp [List.filter_cons, h, sumAmounts]
          · simp [List.filter_cons, h, sumAmounts]
      _ = r.amount + (ks.map fun c =>
            sumAmounts (rs.filter fun x => x.category == c)).sum :=
          sum_map_ite_mem hk hcr _ _
      _ = r.amount + sumAmounts rs := by rw [ih hcov']
      _ = sumAmounts (r :: rs) := by simp [sumAmounts]

/-! ### Canonical date strings (the spec reading of `isValidDate`) -/

/-- Four-digit zero-padded decimal print of a year. -/
def pad4 (n : Nat) : List Char :=
  [Nat.digitChar (n / 1000 % 10), Nat.digitChar (n / 100 % 10),
   Nat.digitChar (n / 10 % 10), Nat.digitChar (n % 10)]

/-- Two-digit zero-padded decimal print of a month or day. -/
def pad2c (n : Nat) : List Char :=
  [Nat.digitChar (n / 10 % 10), Nat.digitChar (n % 10)]

/-- The canonical `YYYY-MM-DD` print of a date, the form produced by
`toISOString().split('T')[0]`. -/
def canonicalDate (y m d : Nat) : String :=
  String.mk (pad4 y ++ '-' :: (pad2c m ++ '-' :: pad2c d))

/-- The specification's formulation of `dateIsValid`: the string matches the
4-2-2 hyphenated digit pattern and parses to a real calendar date whose
canonical string form is the input itself. -/
def dateIsValidSpec (s : String) : Prop :=
  datePattern s = true ∧
  ∃ y m d, y ≤ 9999 ∧ isRealDate y m d = true ∧ canonicalDate y m d = s

theorem daysInMonth_le_31 (y m : Nat) : daysInMonth y m ≤ 31 := by
  unfold daysInMonth
  split_ifs <;> omega

theorem datePatternChars_canonical (y m d : Nat) :
    datePatternChars (pad4 y ++ '-' :: (pad2c m ++ '-' :: pad2c d)) = true := by
  have e1 : (Nat.digitChar (y / 1000 % 10)).isDigit = true :=
    digitChar_isDigit (Nat.mod_lt _ (by norm_num))
  have e2 : (Nat.digitChar (y / 100 % 10)).isDigit = true :=
    digitChar_isDigit (Nat.mod_lt _ (by norm_num))
  have e3 : (Nat.digitChar (y / 10 % 10)).isDigit = true :=
    digitChar_isDigit (Nat.mod_lt _ (by norm_num))
  have e4 : (Nat.digitChar (y % 10)).isDigit = true :=
    digitChar_isDigit (Nat.mod_lt _ (by norm_num))
  have e5 : (Nat.digitChar (m / 10 % 10)).isDigit = true :=
    digitChar_isDigit (Nat.mod_lt _ (by norm_num))
  have e6 : (Nat.digitChar (m % 10)).isDigit = true :=
    digitChar_isDigit (Nat.mod_lt _ (by norm_num))
  have e7 : (Nat.digitChar (d / 10 % 10)).isDigit = true :=
    digitChar_isDigit (Nat.mod_lt _ (by norm_num))
  have e8 : (Nat.digitChar (d % 10)).isDigit = true :=
    digitChar_isDigit (Nat.mod_lt _ (by norm_num))
  unfold pad4 pad2c
  simp only [List.cons_append, List.nil_append]
  unfold datePatternChars
  simp [e1, e2, e3, e4, e5, e6, e7, e8]

theorem parseYMDChars_canonical {y m d : Nat} (hy : y ≤ 9999) (hm : m ≤ 99)
    (hd : d ≤ 99) :
    parseYMDChars (pad4 y ++ '-' :: (pad2c m ++ '-' :: pad2c d))
      = some (y, m, d) := by
  have hpat := datePatternChars_canonical y m d
  have v1 : digitVal (Nat.digitChar (y / 1000 % 10)) = y / 1000 % 10 :=
    digitVal_digitChar (Nat.mod_lt _ (by norm_num))
  have v2 : digitVal (Nat.digitChar (y / 100 % 10)) = y / 100 % 10 :=
    digitVal_digitChar (Nat.mod_lt _ (by norm_num))
  have v3 : digitVal (Nat.digitChar (y / 10 % 10)) = y / 10 % 10 :=
    digitVal_digitChar (Nat.mod_lt _ (by norm_num))
  have v4 : digitVal (Nat.digitChar (y % 10)) = y % 10 :=
    digitVal_digitChar (Nat.mod_lt _ (by norm_num))
  have v5 : digitVal (Nat.digitChar (m / 10 % 10)) = m / 10 % 10 :=
    digitVal_digitChar (Nat.mod_lt _ (by norm_num))
  have v6 : digitVal (Nat.digitChar (m % 10)) = m % 10 :=
    digitVal_digitChar (Nat.mod_lt _ (by norm_num))
  have v7 : digitVal (Nat.digitChar (d / 10 % 10)) = d / 10 % 10 :=
    digitVal_digitChar (Nat.mod_lt _ (by norm_num))
  have v8 : digitVal (Nat.digitChar (d % 10)) = d % 10 :=
    digitVal_digitChar (Nat.mod_lt _ (by norm_num))
  unfold pad4 pad2c at hpat ⊢
  simp only [List.cons_append, List.nil_append] at hpat ⊢
  simp only [parseYMDChars, hpat, if_true, v1, v2, v3, v4, v5, v6, v7, v8]
  simp only [Option.some.injEq, Prod.mk.injEq]
  refine ⟨?_, ?_, ?_⟩ <;> omega

theorem canonical_of_pattern {c1 c2 c3 c4 c5 c6 c7 c8 : Char}
    (hpat : datePatternChars [c1, c2, c3, c4, '-', c5, c6, '-', c7, c8] = true) :
    canonicalDate
        (digitVal c1 * 1000 + digitVal c2 * 100 + digitVal c3 * 10 + digitVal c4)
        (digitVal c5 * 10 + digitVal c6) (digitVal c7 * 10 + digitVal c8)
      = String.mk [c1, c2, c3, c4, '-', c5, c6, '-', c7, c8] := by
  unfold datePatternChars at hpat
  simp only [Bool.and_eq_true] at hpat
  obtain ⟨⟨⟨⟨⟨⟨⟨⟨⟨h1, h2⟩, h3⟩, h4⟩, _⟩, h5⟩, h6⟩, _⟩, h7⟩, h8⟩ := hpat
  have b1 := digitVal_lt_ten h1
  have b2 := digitVal_lt_ten h2
  have b3 := digitVal_lt_ten h3
  have b4 := digitVal_lt_ten h4
  have b5 := digitVal_lt_ten h5
  have b6 := digitVal_lt_ten h6
  have b7 := digitVal_lt_ten h7
  have b8 := digitVal_lt_ten h8
  unfold canonicalDate pad4 pad2c
  congr 1
  simp only [List.cons_append, List.nil_append]
  have q1 : Nat.digitChar ((digitVal c1 * 1000 + digitVal c2 * 100 +
      digitVal c3 * 10 + digitVal c4) / 1000 % 10) = c1 := by
    have hv : (digitVal c1 * 1000 + digitVal c2 * 100 +
        digitVal c3 * 10 + digitVal c4) / 1000 % 10 = digitVal c1 := by omega
    rw [hv, digitChar_digitVal h1]
  have q2 : Nat.digitChar ((digitVal c1 * 1000 + digitVal c2 * 100 +
      digitVal c3 * 10 + digitVal c4) / 100 % 10) = c2 := by
    have hv : (digitVal c1 * 1000 + digitVal c2 * 100 +
        digitVal c3 * 10 + digitVal c4) / 100 % 10 = digitVal c2 := by omega
    rw [hv, digitChar_digitVal h2]
  have q3 : Nat.digitChar ((digitVal c1 * 1000 + digitVal c2 * 100 +
      digitVal c3 * 10 + digitVal c4) / 10 % 10) = c3 := by
    have hv : (digitVal c1 * 1000 + digitVal c2 * 100 +
        digitVal c3 * 10 + digitVal c4) / 10 % 10 = digitVal c3 := by omega
    rw [hv, digitChar_digitVal h3]
  have q4 : Nat.digitChar ((digitVal c1 * 1000 + digitVal c2 * 100 +
      digitVal c3 * 10 + digitVal c4) % 10) = c4 := by
    have hv : (digitVal c1 * 1000 + digitVal c2 * 100 +
        digitVal c3 * 10 + digitVal c4) % 10 = digitVal c4 := by omega
    rw [hv, digitChar_digitVal h4]
  have q5 : Nat.digitChar ((digitVal c5 * 10 + digitVal c6) / 10 % 10) = c5 := by
    have hv : (digitVal c5 * 10 + digitVal c6) / 10 % 10 = digitVal c5 := by omega
    rw [hv, digitChar_digitVal h5]
  have q6 : Nat.digitChar ((digitVal c5 * 10 + digitVal c6) % 10) = c6 := by
    have hv : (digitVal c5 * 10 + digitVal c6) % 10 = digitVal c6 := by omega
    rw [hv, digitChar_digitVal h6]
  have q7 : Nat.digitChar ((digitVal c7 * 10 + digitVal c8) / 10 % 10) = c7 := by
    have hv : (digitVal c7 * 10 + digitVal c8) / 10 % 10 = digitVal c7 := by omega
    rw [hv, digitChar_digitVal h7]
  have q8 : Nat.digitChar ((digitVal c7 * 10 + digitVal c8) % 10) = c8 := by
    have hv : (digitVal c7 * 10 + digitVal c8) % 10 = digitVal c8 := by omega
    rw [hv, digitChar_digitVal h8]
  rw [q1, q2, q3, q4, q5, q6, q7, q8]

theorem parseYMDChars_eq_some {l : List Char} {y m d : Nat}
    (h : parseYMDChars l = some (y, m, d)) :
    ∃ c1 c2 c3 c4 c5 c6 c7 c8,
      l = [c1, c2, c3, c4, '-', c5, c6, '-', c7, c8] ∧
      datePatternChars l = true ∧
      y = digitVal c1 * 1000 + digitVal c2 * 100 + digitVal c3 * 10 + digitVal c4 ∧
      m = digitVal c5 * 10 + digitVal c6 ∧
      d = digitVal c7 * 10 + digitVal c8 := by
  rcases l with _ | ⟨c1, _ | ⟨c2, _ | ⟨c3, _ | ⟨c4, _ | ⟨c5, _ | ⟨c6, _ | ⟨c7,
    _ | ⟨c8, _ | ⟨c9, _ | ⟨c10, _ | ⟨c11, t⟩⟩⟩⟩⟩⟩⟩⟩⟩⟩⟩
  all_goals try exact Option.noConfusion h
  simp only [parseYMDChars] at h
  split_ifs at h with hpat
  · simp only [Option.some.injEq, Prod.mk.injEq] at h
    obtain ⟨hy, hm, hd⟩ := h
    have hpat' := hpat
    unfold datePatternChars at hpat'
    simp only [Bool.and_eq_true] at hpat'
    obtain ⟨⟨⟨⟨⟨⟨⟨⟨⟨_, _⟩, _⟩, _⟩, hh1⟩, _⟩, _⟩, hh2⟩, _⟩, _⟩ := hpat'
    have hc5 : c5 = '-' := by
      have := (beq_iff_eq).mp hh1
      exact this
    have hc8 : c8 = '-' := by
      have := (beq_iff_eq).mp hh2
      exact this
    subst hc5 hc8
    exact ⟨c1, c2, c3, c4, c6, c7, c9, c10, rfl, hpat, hy.symm, hm.symm, hd.symm⟩

/-- `isValidDate` agrees with the specification's formulation: pattern match
plus canonical round-trip through a real calendar date. -/
theorem isValidDate_iff_spec (s : String) :
    isValidDate s = true ↔ dateIsValidSpec s := by
  constructor
  · intro h
    rcases hp : parseYMDChars s.data with _ | ⟨⟨y, m, d⟩⟩
    · simp only [isValidDate, parseYMD, hp] at h
      exact Bool.noConfusion h
    · simp only [isValidDate, parseYMD, hp] at h
      obtain ⟨c1, c2, c3, c4, c5, c6, c7, c8, hshape, hpat, hy, hm, hd⟩ :=
        parseYMDChars_eq_some hp
      have hpat' := hpat
      rw [hshape] at hpat'
      unfold datePatternChars at hpat'
      simp only [Bool.and_eq_true] at hpat'
      obtain ⟨⟨⟨⟨⟨⟨⟨⟨⟨g1, g2⟩, g3⟩, g4⟩, _⟩, g5⟩, g6⟩, _⟩, g7⟩, g8⟩ := hpat'
      have b1 := digitVal_lt_ten g1
      have b2 := digitVal_lt_ten g2
      have b3 := digitVal_lt_ten g3
      have b4 := digitVal_lt_ten g4
      refine ⟨hpat, y, m, d, by omega, h, ?_⟩
      subst hy hm hd
      have hc := canonical_of_pattern (hshape ▸ hpat)
      rw [hc, ← hshape]
  · rintro ⟨hpat, y, m, d, hy, hreal, hcanon⟩
    have hm : m ≤ 99 := by
      unfold isRealDate at hreal
      simp only [Bool.and_eq_true, decide_eq_true_eq] at hreal
      omega
    have hd : d ≤ 99 := by
      have h31 := daysInMonth_le_31 y m
      unfold isRealDate at hreal
      simp only [Bool.and_eq_true, decide_eq_true_eq] at hreal
      omega
    have hdata : s.data = pad4 y ++ '-' :: (pad2c m ++ '-' :: pad2c d) := by
      rw [← hcanon]
      rfl
    simp only [isValidDate, parseYMD, hdata, parseYMDChars_canonical hy hm hd]
    exact hreal

/-! ### Update and operation-sequence lemmas -/

/-- The record produced by a partial update: supplied fields replaced (with
the write-time normalisation of `updateExpense`), unsupplied fields kept. -/
def appliedUpdate (e : Expense) (amount : Option Rat)
    (category description date : Option String) : Expense :=
  { e with
    amount := amount.getD e.amount
    category := (category.map jsToLower).getD e.category
    description := (description.map jsTrim).getD e.description
    date := date.getD e.date }

/-- `WHERE id = ?` lookups commute with an id-preserving rewrite of the rows. -/
theorem selectById_map_ite {rows : List Expense} {id : Nat} {e : Expense}
    (f : Expense → Expense) (h : selectById rows id = some e)
    (hf : ∀ r, (f r).id = r.id) :
    selectById (rows.map fun r => if r.id == id then f r else r) id
      = some (f e) := by
  induction rows with
  | nil => simp [selectById] at h
  | cons r rs ih =>
    by_cases hr : (r.id == id) = true
    · unfold selectById at h ⊢
      rw [List.map_cons]
      simp only [List.find?, hr] at h
      injection h with he
      subst he
      have hfr : ((f r).id == id) = true := by
        rw [hf r]
        exact hr
      simp only [List.find?, if_pos hr, hfr]
    · unfold selectById at h ⊢
      rw [List.map_cons]
      have hrf : (r.id == id) = false := by simpa using hr
      simp only [List.find?, hrf] at h
      have hcond : ((if (r.id == id) = true then f r else r).id == id) = false := by
        rw [if_neg hr]
        exact hrf
      simp only [List.find?, hcond]
      exact ih h

/-- A successful `addExpense` leaves exactly the inserted store behind. -/
theorem addExpense_ok_store {st : Store} {a : Rat} {c d dt now : String}
    {res : AddResult} {st' : Store}
    (h : addExpense st a c d dt now = .ok (res, st')) :
    st' = st.insert a (jsToLower c) (jsTrim d) dt now := by
  unfold addExpense at h
  split_ifs at h
  injection h with h'
  exact (congrArg Prod.snd h').symm

theorem deleteExpense_seq (st : Store) (i : Nat) :
    (deleteExpense st i).2.seq = st.seq := by
  unfold deleteExpense
  rcases selectById st.rows i with _ | e <;> rfl

theorem deleteExpense_rows_sublist (st : Store) (i : Nat) :
    (deleteExpense st i).2.rows.Sublist st.rows := by
  unfold deleteExpense
  rcases selectById st.rows i with _ | e
  · exact List.Sublist.refl _
  · exact List.filter_sublist _

theorem applyOp_add_ok {st : Store} {a : Rat} {c d dt now : String}
    {res : AddResult} {st' : Store}
    (h : addExpense st a c d dt now = .ok (res, st')) :
    applyOp st (.add a c d dt now) = st' := by
  simp [applyOp, h]

theorem applyOp_add_err {st : Store} {a : Rat} {c d dt now : String}
    {msg : String} (h : addExpense st a c d dt now = .error msg) :
    applyOp st (.add a c d dt now) = st := by
  simp [applyOp, h]

theorem applyOp_del (st : Store) (i : Nat) :
    applyOp st (.del i) = (deleteExpense st i).2 := rfl

theorem assignedIds_add_ok {st : Store} {a : Rat} {c d dt now : String}
    {res : AddResult} {st' : Store} {ops : List StoreOp}
    (h : addExpense st a c d dt now = .ok (res, st')) :
    assignedIds st (.add a c d dt now :: ops) = st.seq :: assignedIds st' ops := by
  simp [assignedIds, h]

theorem assignedIds_add_err {st : Store} {a : Rat} {c d dt now : String}
    {msg : String} {ops : List StoreOp}
    (h : addExpense st a c d dt now = .error msg) :
    assignedIds st (.add a c d dt now :: ops) = assignedIds st ops := by
  simp [assignedIds, h]

theorem assignedIds_del (st : Store) (i : Nat) (ops : List StoreOp) :
    assignedIds st (.del i :: ops)
      = assignedIds ((deleteExpense st i).2) ops := rfl

theorem insert_seq (st : Store) (a : Rat) (c d dt now : String) :
    (st.insert a c d dt now).seq = st.seq + 1 := rfl

theorem applyOp_seq_le (st : Store) (op : StoreOp) :
    st.seq ≤ (applyOp st op).seq := by
  cases op with
  | add a c d dt now =>
      rcases h : addExpense st a c d dt now with msg | ⟨res, st'⟩
      · rw [applyOp_add_err h]
      · rw [applyOp_add_ok h, addExpense_ok_store h, insert_seq]
        exact Nat.le_succ _
  | del i =>
      rw [applyOp_del, deleteExpense_seq]

theorem applyOp_WF {st : Store} (hwf : st.WF) (op : StoreOp) :
    (applyOp st op).WF := by
  cases op with
  | add a c d dt now =>
      rcases h : addExpense st a c d dt now with msg | ⟨res, st'⟩
      · rw [applyOp_add_err h]
        exact hwf
      · rw [applyOp_add_ok h, addExpense_ok_store h]
        intro r hr
        rw [insert_seq]
        rcases List.mem_append.mp hr with hr | hr
        · exact Nat.lt_succ_of_lt (hwf r hr)
        · simp only [List.mem_singleton] at hr
          subst hr
          exact Nat.lt_succ_self _
  | del i =>
      rw [applyOp_del]
      intro r hr
      rw [deleteExpense_seq]
      exact hwf r ((deleteExpense_rows_sublist st i).mem hr)

theorem applyOp_nodup {st : Store} (hwf : st.WF)
    (hnd : (st.rows.map (·.id)).Nodup) (op : StoreOp) :
    ((applyOp st op).rows.map (·.id)).Nodup := by
  cases op with
  | add a c d dt now =>
      rcases h : addExpense st a c d dt now with msg | ⟨res, st'⟩
      · rw [applyOp_add_err h]
        exact hnd
      · rw [applyOp_add_ok h, addExpense_ok_store h]
        unfold Store.insert
        simp only [List.map_append, List.map_cons, List.map_nil]
        rw [List.nodup_append]
        refine ⟨hnd, List.nodup_singleton _, ?_⟩
        intro x hx
        simp only [List.mem_singleton]
        rcases List.mem_map.mp hx with ⟨r, hr, rfl⟩
        have := hwf r hr
        omega
  | del i =>
      rw [applyOp_del]
      exact List.Nodup.sublist
        ((deleteExpense_rows_sublist st i).map (·.id)) hnd

theorem execOps_WF {st : Store} (hwf : st.WF) (ops : List StoreOp) :
    (execOps st ops).WF := by
  induction ops generalizing st with
  | nil => exact hwf
  | cons op ops ih => exact ih (applyOp_WF hwf op)

theorem execOps_nodup {st : Store} (hwf : st.WF)
    (hnd : (st.rows.map (·.id)).Nodup) (ops : List StoreOp) :
    ((execOps st ops).rows.map (·.id)).Nodup := by
  induction ops generalizing st with
  | nil => exact hnd
  | cons op ops ih => exact ih (applyOp_WF hwf op) (applyOp_nodup hwf hnd op)

theorem assignedIds_lb (ops : List StoreOp) (st : Store) :
    ∀ i ∈ assignedIds st ops, st.seq ≤ i := by
  induction ops generalizing st with
  | nil => intro i hi; simp [assignedIds] at hi
  | cons op ops ih =>
      intro i hi
      cases op with
      | add a c d dt now =>
          rcases h : addExpense st a c d dt now with msg | ⟨res, st'⟩
          · rw [assignedIds_add_err h] at hi
            exact ih st i hi
          · rw [assignedIds_add_ok h] at hi
            rcases List.mem_cons.mp hi with rfl | hi2
            · exact Nat.le_refl _
            · have hlb := ih st' i hi2
              have hseq : st'.seq = st.seq + 1 := by
                rw [addExpense_ok_store h, insert_seq]
              omega
      | del j =>
          rw [assignedIds_del] at hi
          have := ih ((deleteExpense st j).2) i hi
          rw [deleteExpense_seq] at this
          exact this

theorem assignedIds_pairwise (ops : List StoreOp) (st : Store) :
    (assignedIds st ops).Pairwise (· < ·) := by
  induction ops generalizing st with
  | nil => exact List.Pairwise.nil
  | cons op ops ih =>
      cases op with
      | add a c d dt now =>
          rcases h : addExpense st a c d dt now with msg | ⟨res, st'⟩
          · rw [assignedIds_add_err h]
            exact ih st
          · rw [assignedIds_add_ok h]
            refine List.Pairwise.cons ?_ (ih st')
            intro i hi
            have hlb := assignedIds_lb ops st' i hi
            have hseq : st'.seq = st.seq + 1 := by
              rw [addExpense_ok_store h, insert_seq]
            omega
      | del j =>
          rw [assignedIds_del]
          exact ih _

/-! ## Claim theorems -/

/-- C5: `dateIsValid(s)` returns true iff `s` matches the 4-digit-year /
2-digit-month / 2-digit-day hyphenated pattern and parses to a real calendar
date whose canonical string form equals `s` exactly; in particular it is true
for `2024-11-03` and false for `2024-13-01`, `2024-02-30` and `11/03/2024`. -/
theorem C5_dateIsValid (s : String) :
    (isValidDate s = true ↔ dateIsValidSpec s) ∧
    isValidDate "2024-11-03" = true ∧
    isValidDate "2024-13-01" = false ∧
    isValidDate "2024-02-30" = false ∧
    isValidDate "11/03/2024" = false :=
  ⟨isValidDate_iff_spec s, by decide, by decide, by decide, by decide⟩

/-- C7: over any sequence of add and delete operations, each successful add
hands out an id strictly greater than every previously assigned one (so ids
are never reused, in particular not after a delete), and the stored ids stay
duplicate-free. -/
theorem C7_id_monotone (st : Store) (ops : List StoreOp) (hwf : st.WF) :
    (assignedIds st ops).Pairwise (· < ·) ∧
    ((st.rows.map (·.id)).Nodup → ((execOps st ops).rows.map (·.id)).Nodup) :=
  ⟨assignedIds_pairwise ops st, fun hnd => execOps_nodup hwf hnd ops⟩

/-- C8: deleting an id that is not in the store fails with a not-found error
whose message carries the id and leaves the store untouched; deleting an
existing id returns that record's prior state and removes exactly the rows
with that id (exactly one row, ids being unique). -/
theorem C8_delete (st : Store) (id : Nat) :
    (selectById st.rows id = none →
      (deleteExpense st id).1 = .error (notFoundMsg id) ∧
      (∃ pre post, notFoundMsg id = pre ++ toString id ++ post) ∧
      (deleteExpense st id).2 = st) ∧
    (∀ e, selectById st.rows id = some e →
      (deleteExpense st id).1 = .ok e ∧
      (deleteExpense st id).2.rows = st.rows.filter (fun r => ¬ r.id == id) ∧
      (deleteExpense st id).2.seq = st.seq ∧
      e ∈ st.rows ∧ e.id = id ∧
      e ∉ (deleteExpense st id).2.rows ∧
      (∀ r ∈ st.rows, r.id ≠ id → r ∈ (deleteExpense st id).2.rows)) := by
  constructor
  · intro hnone
    unfold deleteExpense
    rw [hnone]
    exact ⟨rfl, ⟨"Expense with ID ", " not found", rfl⟩, rfl⟩
  · intro e hsome
    have hmem : e ∈ st.rows := List.mem_of_find?_eq_some hsome
    have hid : e.id = id := by
      have := List.find?_some hsome
      simpa using this
    unfold deleteExpense
    rw [hsome]
    refine ⟨rfl, rfl, rfl, hmem, hid, ?_, ?_⟩
    · intro hin
      have := (List.mem_filter.mp hin).2
      simp [hid] at this
    · intro r hr hrid
      exact List.mem_filter.mpr ⟨hr, by simp [hrid]⟩

/-- C10: the category predicate is not total over dynamic values — on a
number, `null`, or a plain object, the unconditional `.toLowerCase()` call in
`isValidCategory` raises a `TypeError`, and `addExpense` surfaces that
`TypeError` (whose message differs from the category-validation message). -/
theorem C10_isValidCategory_typeError (st : Store) (amount n : Rat)
    (description date now : String)
    (hamt : isValidAmount amount = true) :
    isValidCategoryJS (.num n)
        = .error (.typeError "category.toLowerCase is not a function") ∧
    isValidCategoryJS .null
        = .error (.typeError
            "Cannot read properties of null (reading 'toLowerCase')") ∧
    isValidCategoryJS .object
        = .error (.typeError "category.toLowerCase is not a function") ∧
    addExpenseJS st amount (.num n) description date now
        = .error (.typeError "category.toLowerCase is not a function") ∧
    addExpenseJS st amount .null description date now
        = .error (.typeError
            "Cannot read properties of null (reading 'toLowerCase')") ∧
    addExpenseJS st amount .object description date now
        = .error (.typeError "category.toLowerCase is not a function") ∧
    (∀ msg, JSError.typeError msg ≠ JSError.error categoryErrMsg) := by
  refine ⟨rfl, rfl, rfl, ?_, ?_, ?_, fun msg h => JSError.noConfusion h⟩
  all_goals (unfold addExpenseJS; rw [if_neg (by simp [hamt])]; rfl)

/-- C9: for any in-range year and month matched by no stored record, the
monthly summary succeeds with zero totals and empty category and daily
breakdowns. -/
theorem C9_monthlySummary_empty (st : Store) (year month : Nat)
    (hy1 : 2000 ≤ year) (hy2 : year ≤ 2100)
    (hm1 : 1 ≤ month) (hm2 : month ≤ 12)
    (hempty : ∀ r ∈ st.rows,
      ¬(strLe (monthStart year month) r.date = true ∧
        strLe r.date (monthEnd year month) = true)) :
    getMonthlySummary st year month = .ok
      { month := getMonthName month
        year := year
        period := monthStart year month ++ " to " ++ monthEnd year month
        total_transactions := 0
        total_spending := 0
        average_transaction := 0
        category_breakdown := []
        daily_spending := [] } := by
  have hmatch : st.rows.filter (fun r =>
      strLe (monthStart year month) r.date && strLe r.date (monthEnd year month))
        = [] := by
    rw [List.filter_eq_nil_iff]
    intro r hr
    have h := hempty r hr
    simp only [Bool.and_eq_true]
    exact h
  unfold getMonthlySummary
  rw [if_neg (by omega), if_neg (by omega)]
  simp only [hmatch, groupKeys, dayKeys, List.map_nil, List.dedup_nil,
    List.insertionSort, List.length_nil, List.isEmpty_nil, if_pos rfl]
  rfl

/-- C1: a valid add succeeds, returns the freshly stored record with the
category lowercased and the description trimmed, and re-reading that record
by its id yields a record equal on all fields. -/
theorem C1_add_roundtrip (st : Store) (amount : Rat)
    (category description date now : String) (hwf : st.WF)
    (hamt : isValidAmount amount = true)
    (hcat : isValidCategory category = true)
    (hdesc : jsTrim description ≠ "") (hdate : isValidDate date = true) :
    addExpense st amount category description date now = .ok
      ({ message := "Expense added successfully",
         expense := some ({ id := st.seq, amount := amount,
                            category := jsToLower category,
                            description := jsTrim description,
                            date := date, created_at := now } : Expense) },
       st.insert amount (jsToLower category) (jsTrim description) date now) ∧
    selectById
        (st.insert amount (jsToLower category) (jsTrim description)
          date now).rows st.seq
      = some ({ id := st.seq, amount := amount,
                category := jsToLower category,
                description := jsTrim description, date := date,
                created_at := now } : Expense) := by
  have hne : ¬(description = "" ∨ jsTrim description = "") := by
    rintro (rfl | h)
    · exact hdesc rfl
    · exact hdesc h
  constructor
  · unfold addExpense
    rw [if_neg (by simp [hamt]), if_neg (by simp [hcat]),
      if_neg (by simp [hdate]), if_neg hne]
    have hmax : selectMaxId
        (st.insert amount (jsToLower category) (jsTrim description)
          date now).rows
        = some ({ id := st.seq, amount := amount,
                  category := jsToLower category,
                  description := jsTrim description, date := date,
                  created_at := now } : Expense) := by
      unfold Store.insert
      exact selectMaxId_append st.rows _ (fun x hx => hwf x hx)
    simp only [hmax]
  · unfold Store.insert selectById
    apply find?_append_singleton
    · intro x hx
      have := hwf x hx
      simp only [beq_eq_false_iff_ne, ne_eq]
      omega
    · simp

/-- The specification's conjunctive filter for list-style reads: a record
matches iff (no start date OR `record.date >= start`) AND (no end date OR
`record.date <= end`) AND (no category OR `record.category` equals the
lowercased category). -/
def matchesFilters (startDate endDate category : Option String)
    (r : Expense) : Bool :=
  (match startDate with | none => true | some s => strLe s r.date) &&
  (match endDate with | none => true | some s => strLe r.date s) &&
  (match category with | none => true | some s => r.category == jsToLower s)

/-- The list of `WHERE` terms `buildStart` produces for a valid argument. -/
def startTerms : Option String → List (Expense → Bool)
  | none => []
  | some s => [startTerm s]

/-- The list of `WHERE` terms `buildEnd` produces for a valid argument. -/
def endTerms : Option String → List (Expense → Bool)
  | none => []
  | some s => [endTerm s]

/-- The list of `WHERE` terms `buildCat` produces for a valid argument. -/
def catTerms : Option String → List (Expense → Bool)
  | none => []
  | some s => [catTerm s]

theorem buildStart_ok {sd : Option String}
    (h : ∀ s, sd = some s → isValidDate s = true) :
    buildStart sd = .ok (startTerms sd) := by
  cases sd with
  | none => rfl
  | some s =>
      have hv := h s rfl
      have hne : ¬ s = "" := by
        rintro rfl
        exact absurd hv (by decide)
      simp only [buildStart, startTerms]
      rw [if_neg hne, if_neg (by simp [hv])]

theorem buildEnd_ok {ed : Option String}
    (h : ∀ s, ed = some s → isValidDate s = true) :
    buildEnd ed = .ok (endTerms ed) := by
  cases ed with
  | none => rfl
  | some s =>
      have hv := h s rfl
      have hne : ¬ s = "" := by
        rintro rfl
        exact absurd hv (by decide)
      simp only [buildEnd, endTerms]
      rw [if_neg hne, if_neg (by simp [hv])]

theorem buildCat_ok {cat : Option String}
    (h : ∀ s, cat = some s → isValidCategory s = true) :
    buildCat cat = .ok (catTerms cat) := by
  cases cat with
  | none => rfl
  | some s =>
      have hv := h s rfl
      have hne : ¬ s = "" := by
        rintro rfl
        exact absurd hv (by decide)
      simp only [buildCat, catTerms]
      rw [if_neg hne, if_neg (by simp [hv])]

/-- C3: with valid filters, `get_expenses` returns exactly the records
satisfying the spec's conjunction, ordered date-descending with ties broken
id-descending, truncated to the limit (default 100) after ordering. -/
theorem C3_getExpenses (st : Store) (sd ed cat : Option String)
    (limit : Option Int)
    (hsd : ∀ s, sd = some s → isValidDate s = true)
    (hed : ∀ s, ed = some s → isValidDate s = true)
    (hcat : ∀ s, cat = some s → isValidCategory s = true) :
    ∃ res, getExpenses st sd ed cat limit = .ok res ∧
      res.expenses = sqlLimit (limit.getD 100)
        ((st.rows.filter (matchesFilters sd ed cat)).insertionSort newestFirst) ∧
      res.count = res.expenses.length ∧
      res.expenses.Sorted newestFirst ∧
      ∀ e ∈ res.expenses, e ∈ st.rows ∧ matchesFilters sd ed cat e = true := by
  have h1 := buildStart_ok hsd
  have h2 := buildEnd_ok hed
  have h3 := buildCat_ok hcat
  have hfun : passesAll (startTerms sd ++ endTerms ed ++ catTerms cat)
      = matchesFilters sd ed cat := by
    funext r
    rcases sd with _ | s <;> rcases ed with _ | t <;> rcases cat with _ | c <;>
      simp [passesAll, matchesFilters, startTerm, endTerm, catTerm,
        startTerms, endTerms, catTerms, Bool.and_assoc]
  refine ⟨{ count := (sqlLimit (limit.getD 100) ((st.rows.filter
              (matchesFilters sd ed cat)).insertionSort newestFirst)).length,
            expenses := sqlLimit (limit.getD 100) ((st.rows.filter
              (matchesFilters sd ed cat)).insertionSort newestFirst) },
          ?_, rfl, rfl, ?_, ?_⟩
  · simp only [getExpenses, h1, h2, h3, hfun]
  · unfold sqlLimit
    split_ifs
    · exact List.sorted_insertionSort newestFirst _
    · exact List.Pairwise.sublist (List.take_sublist _ _)
        (List.sorted_insertionSort newestFirst _)
  · intro e he
    have hmem : e ∈ (st.rows.filter
        (matchesFilters sd ed cat)).insertionSort newestFirst := by
      unfold sqlLimit at he
      split_ifs at he
      · exact he
      · exact List.take_subset _ _ he
    rw [List.mem_insertionSort] at hmem
    exact ⟨(List.mem_filter.mp hmem).1, (List.mem_filter.mp hmem).2⟩

/-- C4: the category breakdown orders groups by summed amount descending,
reports `total_spending` as the sum of the amounts of all matched records,
gives each group `percentage = 100 * groupSum / totalSpending` rounded to two
decimal places, and reports the literal `0` for every group whenever the
total is zero (never dividing by zero). -/
theorem C4_spendingByCategory (st : Store) (sd ed : Option String)
    (hsd : ∀ s, sd = some s → isValidDate s = true)
    (hed : ∀ s, ed = some s → isValidDate s = true) :
    ∃ res, getSpendingByCategory st sd ed = .ok res ∧
      res.categories.Sorted byTotalDesc ∧
      res.total_spending
        = sumAmounts (st.rows.filter (matchesFilters sd ed none)) ∧
      (∀ g ∈ res.categories,
        g.percentage = if 0 < res.total_spending
          then toFixed2 (100 * g.total_amount / res.total_spending) else 0) ∧
      (res.total_spending = 0 → ∀ g ∈ res.categories, g.percentage = 0) := by
  have h1 := buildStart_ok hsd
  have h2 := buildEnd_ok hed
  have hfun : passesAll (startTerms sd ++ endTerms ed)
      = matchesFilters sd ed none := by
    funext r
    rcases sd with _ | s <;> rcases ed with _ | t <;>
      simp [passesAll, matchesFilters, startTerm, endTerm,
        startTerms, endTerms, Bool.and_assoc]
  refine ⟨{ total_spending :=
              (((((groupKeys (st.rows.filter (matchesFilters sd ed none))).map
                (groupStat (st.rows.filter
                  (matchesFilters sd ed none)))).insertionSort
                    byTotalDesc).map (·.total_amount)).sum),
            categories := (((groupKeys (st.rows.filter
                (matchesFilters sd ed none))).map
                (groupStat (st.rows.filter
                  (matchesFilters sd ed none)))).insertionSort
                    byTotalDesc).map (fun cat =>
              { cat with percentage :=
                  if 0 < (((((groupKeys (st.rows.filter
                      (matchesFilters sd ed none))).map
                      (groupStat (st.rows.filter
                        (matchesFilters sd ed none)))).insertionSort
                          byTotalDesc).map (·.total_amount)).sum) then
                    toFixed2 (cat.total_amount /
                      (((((groupKeys (st.rows.filter
                        (matchesFilters sd ed none))).map
                        (groupStat (st.rows.filter
                          (matchesFilters sd ed none)))).insertionSort
                            byTotalDesc).map (·.total_amount)).sum) * 100)
                  else 0 }) },
          ?_, ?_, ?_, ?_, ?_⟩
  · simp only [getSpendingByCategory, h1, h2, hfun]
  · dsimp only
    apply List.Pairwise.map
    · intro a b hab
      exact hab
    · exact List.sorted_insertionSort byTotalDesc _
  · dsimp only
    have hperm : List.Perm
        (((groupKeys (st.rows.filter (matchesFilters sd ed none))).map
          (groupStat (st.rows.filter
            (matchesFilters sd ed none)))).insertionSort byTotalDesc)
        ((groupKeys (st.rows.filter (matchesFilters sd ed none))).map
          (groupStat (st.rows.filter (matchesFilters sd ed none)))) :=
      List.perm_insertionSort byTotalDesc _
    rw [(hperm.map (·.total_amount)).sum_eq, List.map_map]
    exact sum_groups (List.nodup_dedup _)
      (fun r hr => List.mem_dedup.mpr (List.mem_map_of_mem _ hr))
  · dsimp only
    intro g hg
    rcases List.mem_map.mp hg with ⟨cat, hcat, rfl⟩
    dsimp only
    split_ifs with hpos
    · congr 1
      ring
    · rfl
  · dsimp only
    intro hzero g hg
    rcases List.mem_map.mp hg with ⟨cat, hcat, rfl⟩
    dsimp only
    rw [if_neg]
    rw [hzero]
    exact lt_irrefl 0

theorem buildStart_passes {sd : Option String}
    (h : ∀ s, sd = some s → s ≠ "" → isValidDate s = true) :
    ∃ ts, buildStart sd = .ok ts := by
  cases sd with
  | none => exact ⟨[], rfl⟩
  | some s =>
      by_cases hne : s = ""
      · subst hne
        exact ⟨[], by simp [buildStart]⟩
      · exact ⟨[startTerm s], by simp [buildStart, hne, h s rfl hne]⟩

theorem buildEnd_passes {ed : Option String}
    (h : ∀ s, ed = some s → s ≠ "" → isValidDate s = true) :
    ∃ ts, buildEnd ed = .ok ts := by
  cases ed with
  | none => exact ⟨[], rfl⟩
  | some s =>
      by_cases hne : s = ""
      · subst hne
        exact ⟨[], by simp [buildEnd]⟩
      · exact ⟨[endTerm s], by simp [buildEnd, hne, h s rfl hne]⟩

/-- C6 as stated is false: the counterexample shows `limit` is not validated.
This amended statement keeps what the code does enforce: a supplied non-empty
start date, end date, or category that fails validation makes `get_expenses`
throw a validation error naming that field (checked in that order) and return
no records. -/
theorem C6_filter_validation (st : Store) (sd ed cat : Option String)
    (limit : Option Int) :
    (∀ s, sd = some s → s ≠ "" → isValidDate s = false →
      getExpenses st sd ed cat limit
        = .error "Invalid start date format. Use YYYY-MM-DD") ∧
    ((∀ s, sd = some s → s ≠ "" → isValidDate s = true) →
      ∀ s, ed = some s → s ≠ "" → isValidDate s = false →
      getExpenses st sd ed cat limit
        = .error "Invalid end date format. Use YYYY-MM-DD") ∧
    ((∀ s, sd = some s → s ≠ "" → isValidDate s = true) →
      (∀ s, ed = some s → s ≠ "" → isValidDate s = true) →
      ∀ s, cat = some s → s ≠ "" → isValidCategory s = false →
      getExpenses st sd ed cat limit = .error categoryErrMsg) := by
  refine ⟨?_, ?_, ?_⟩
  · intro s hs hne hbad
    subst hs
    have hb : buildStart (some s)
        = .error "Invalid start date format. Use YYYY-MM-DD" := by
      simp [buildStart, hne, hbad]
    simp only [getExpenses, hb]
  · intro hok s hs hne hbad
    subst hs
    obtain ⟨ts, hb1⟩ := buildStart_passes hok
    have hb2 : buildEnd (some s)
        = .error "Invalid end date format. Use YYYY-MM-DD" := by
      simp [buildEnd, hne, hbad]
    simp only [getExpenses, hb1, hb2]
  · intro hok1 hok2 s hs hne hbad
    subst hs
    obtain ⟨ts1, hb1⟩ := buildStart_passes hok1
    obtain ⟨ts2, hb2⟩ := buildEnd_passes hok2
    have hb3 : buildCat (some s) = .error categoryErrMsg := by
      simp [buildCat, hne, hbad]
    simp only [getExpenses, hb1, hb2, hb3]

/-- C6 counterexample: `get_expenses` with `limit = 1001`, outside the
documented range 1..1000, succeeds with an ordinary result instead of failing
with a validation error. -/
theorem C6_limit_not_validated :
    getExpenses { rows := [], seq := 1 } none none none (some 1001)
      = .ok { count := 0, expenses := [] } := by
  rfl

/-- Variant of `selectById_map_ite` with the propositional condition form
that `simp` normalises `==` into. -/
theorem selectById_map_ite2 {rows : List Expense} {id : Nat} {e : Expense}
    (f : Expense → Expense) (h : selectById rows id = some e)
    (hf : ∀ r, (f r).id = r.id) :
    selectById (rows.map fun r => if r.id = id then f r else r) id
      = some (f e) := by
  have hmapeq : (rows.map fun r => if r.id = id then f r else r)
      = rows.map fun r => if r.id == id then f r else r := by
    apply List.map_congr_left
    intro r _
    by_cases h1 : r.id = id <;> simp [h1]
  rw [hmapeq]
  exact selectById_map_ite f h hf

/-- C2: an update of an existing record replaces exactly the supplied fields
(normalised as on add) and keeps every unsupplied field, including `id` and
`created_at`; an update whose id matches nothing fails with the not-found
error; an update supplying no field fails with the distinct empty-update
error.  Errors leave the store untouched. -/
theorem C2_update (st : Store) (id : Nat) (amount : Option Rat)
    (category description date : Option String) :
    (selectById st.rows id = none →
      updateExpense st id amount category description date
        = (.error (notFoundMsg id), st)) ∧
    (∀ e, selectById st.rows id = some e →
      amount = none → category = none → description = none → date = none →
      updateExpense st id amount category description date
        = (.error emptyUpdateMsg, st) ∧ emptyUpdateMsg ≠ notFoundMsg id) ∧
    (∀ e, selectById st.rows id = some e →
      (amount.isSome ∨ category.isSome ∨ description.isSome ∨ date.isSome) →
      (∀ a, amount = some a → isValidAmount a = true) →
      (∀ c, category = some c → isValidCategory c = true) →
      (∀ ds, description = some ds → jsTrim ds ≠ "") →
      (∀ dt, date = some dt → isValidDate dt = true) →
      (updateExpense st id amount category description date).1
          = .ok (some (appliedUpdate e amount category description date)) ∧
      (appliedUpdate e amount category description date).id = e.id ∧
      (appliedUpdate e amount category description date).created_at
          = e.created_at ∧
      (updateExpense st id amount category description date).2.rows
          = st.rows.map (fun r => if r.id == id then
              appliedUpdate r amount category description date else r) ∧
      (updateExpense st id amount category description date).2.seq
          = st.seq) := by
  refine ⟨?_, ?_, ?_⟩
  · intro hnone
    simp [updateExpense, hnone]
  · intro e hsome ha hc hd ht
    subst ha
    subst hc
    subst hd
    subst ht
    constructor
    · simp [updateExpense, hsome]
    · intro h
      have hL : emptyUpdateMsg.data.head? = some 'N' := rfl
      rw [h] at hL
      have hR : (notFoundMsg id).data.head? = some 'E' := rfl
      rw [hR] at hL
      exact absurd hL (by decide)
  · intro e hsome hsup hva hvc hvd hvt
    rcases amount with _ | a <;> rcases category with _ | c <;>
      rcases description with _ | ds <;> rcases date with _ | dt
    · simp at hsup
    · have hT := hvt dt rfl
      simp [updateExpense, hsome, appliedUpdate, hT]
      exact selectById_map_ite2 (fun r => { r with date := dt }) hsome (fun r => rfl)
    · have hD := hvd ds rfl
      simp [updateExpense, hsome, appliedUpdate, hD]
      exact selectById_map_ite2 (fun r => { r with description := jsTrim ds }) hsome (fun r => rfl)
    · have hD := hvd ds rfl
      have hT := hvt dt rfl
      simp [updateExpense, hsome, appliedUpdate, hD, hT]
      exact selectById_map_ite2 (fun r => { r with description := jsTrim ds, date := dt }) hsome (fun r => rfl)
    · have hC := hvc c rfl
      simp [updateExpense, hsome, appliedUpdate, hC]
      exact selectById_map_ite2 (fun r => { r with category := jsToLower c }) hsome (fun r => rfl)
    · have hC := hvc c rfl
      have hT := hvt dt rfl
      simp [updateExpense, hsome, appliedUpdate, hC, hT]
      exact selectById_map_ite2 (fun r => { r with category := jsToLower c, date := dt }) hsome (fun r => rfl)
    · have hC := hvc c rfl
      have hD := hvd ds rfl
      simp [updateExpense, hsome, appliedUpdate, hC, hD]
      exact selectById_map_ite2 (fun r => { r with category := jsToLower c, description := jsTrim ds }) hsome (fun r => rfl)
    · have hC := hvc c rfl
      have hD := hvd ds rfl
      have hT := hvt dt rfl
      simp [updateExpense, hsome, appliedUpdate, hC, hD, hT]
      exact selectById_map_ite2 (fun r => { r with category := jsToLower c, description := jsTrim ds, date := dt }) hsome (fun r => rfl)
    · have hA := hva a rfl
      simp [updateExpense, hsome, appliedUpdate, hA]
      exact selectById_map_ite2 (fun r => { r with amount := a }) hsome (fun r => rfl)
    · have hA := hva a rfl
      have hT := hvt dt rfl
      simp [updateExpense, hsome, appliedUpdate, hA, hT]
      exact selectById_map_ite2 (fun r => { r with amount := a, date := dt }) hsome (fun r => rfl)
    · have hA := hva a rfl
      have hD := hvd ds rfl
      simp [updateExpense, hsome, appliedUpdate, hA, hD]
      exact selectById_map_ite2 (fun r => { r with amount := a, description := jsTrim ds }) hsome (fun r => rfl)
    · have hA := hva a rfl
      have hD := hvd ds rfl
      have hT := hvt dt rfl
      simp [updateExpense, hsome, appliedUpdate, hA, hD, hT]
      exact selectById_map_ite2 (fun r => { r with amount := a, description := jsTrim ds, date := dt }) hsome (fun r => rfl)
    · have hA := hva a rfl
      have hC := hvc c rfl
      simp [updateExpense, hsome, appliedUpdate, hA, hC]
      exact selectById_map_ite2 (fun r => { r with amount := a, category := jsToLower c }) hsome (fun r => rfl)
    · have hA := hva a rfl
      have hC := hvc c rfl
      have hT := hvt dt rfl
      simp [updateExpense, hsome, appliedUpdate, hA, hC, hT]
      exact selectById_map_ite2 (fun r => { r with amount := a, category := jsToLower c, date := dt }) hsome (fun r => rfl)
    · have hA := hva a rfl
      have hC := hvc c rfl
      have hD := hvd ds rfl
      simp [updateExpense, hsome, appliedUpdate, hA, hC, hD]
      exact selectById_map_ite2 (fun r => { r with amount := a, category := jsToLower c, description := jsTrim ds }) hsome (fun r => rfl)
    · have hA := hva a rfl
      have hC := hvc c rfl
      have hD := hvd ds rfl
      have hT := hvt dt rfl
      simp [updateExpense, hsome, appliedUpdate, hA, hC, hD, hT]
      exact selectById_map_ite2 (fun r => { r with amount := a, category := jsToLower c, description := jsTrim ds, date := dt }) hsome (fun r => rfl)

/-! ## Witnesses: each claim theorem applied at concrete inputs -/

theorem C1_add_roundtrip_witness :
    addExpense { rows := [], seq := 1 } 10 "Food" " lunch " "2024-11-03" "now"
      = .ok ({ message := "Expense added successfully",
               expense := some ({ id := 1, amount := 10,
                                  category := jsToLower "Food",
                                  description := jsTrim " lunch ",
                                  date := "2024-11-03",
                                  created_at := "now" } : Expense) },
        Store.insert { rows := [], seq := 1 } 10 (jsToLower "Food")
          (jsTrim " lunch ") "2024-11-03" "now") ∧
    selectById (Store.insert { rows := [], seq := 1 } 10 (jsToLower "Food")
        (jsTrim " lunch ") "2024-11-03" "now").rows 1
      = some ({ id := 1, amount := 10, category := jsToLower "Food",
                description := jsTrim " lunch ", date := "2024-11-03",
                created_at := "now" } : Expense) :=
  C1_add_roundtrip { rows := [], seq := 1 } 10 "Food" " lunch " "2024-11-03"
    "now" (by intro r hr; simp at hr) (by decide) (by decide) (by decide)
    (by decide)

theorem C2_update_witness :
    (updateExpense
        { rows := [{ id := 1, amount := 10, category := "food",
                     description := "lunch", date := "2024-11-03",
                     created_at := "t" }], seq := 2 }
        1 (some 30) none none none).1
      = .ok (some (appliedUpdate
          { id := 1, amount := 10, category := "food", description := "lunch",
            date := "2024-11-03", created_at := "t" }
          (some 30) none none none)) ∧
    (appliedUpdate
        { id := 1, amount := 10, category := "food", description := "lunch",
          date := "2024-11-03", created_at := "t" }
        (some 30) none none none).id
      = ({ id := 1, amount := 10, category := "food", description := "lunch",
           date := "2024-11-03", created_at := "t" } : Expense).id ∧
    (appliedUpdate
        { id := 1, amount := 10, category := "food", description := "lunch",
          date := "2024-11-03", created_at := "t" }
        (some 30) none none none).created_at
      = ({ id := 1, amount := 10, category := "food", description := "lunch",
           date := "2024-11-03", created_at := "t" } : Expense).created_at ∧
    (updateExpense
        { rows := [{ id := 1, amount := 10, category := "food",
                     description := "lunch", date := "2024-11-03",
                     created_at := "t" }], seq := 2 }
        1 (some 30) none none none).2.rows
      = List.map (fun r => if r.id == 1 then
            appliedUpdate r (some 30) none none none else r)
          [{ id := 1, amount := 10, category := "food", description := "lunch",
             date := "2024-11-03", created_at := "t" }] ∧
    (updateExpense
        { rows := [{ id := 1, amount := 10, category := "food",
                     description := "lunch", date := "2024-11-03",
                     created_at := "t" }], seq := 2 }
        1 (some 30) none none none).2.seq = 2 :=
  (C2_update
      { rows := [{ id := 1, amount := 10, category := "food",
                   description := "lunch", date := "2024-11-03",
                   created_at := "t" }], seq := 2 }
      1 (some 30) none none none).2.2
    { id := 1, amount := 10, category := "food", description := "lunch",
      date := "2024-11-03", created_at := "t" }
    (by decide) (Or.inl rfl)
    (fun a ha => by cases ha; decide)
    (fun c hc => nomatch hc) (fun ds hd => nomatch hd) (fun dt ht => nomatch ht)

theorem C3_getExpenses_witness :
    ∃ res, getExpenses
        { rows := [{ id := 1, amount := 10, category := "food",
                     description := "lunch", date := "2024-11-03",
                     created_at := "t" }], seq := 2 }
        (some "2024-01-01") none (some "Food") none = .ok res ∧
      res.expenses = sqlLimit ((none : Option Int).getD 100)
        ((List.filter
            (matchesFilters (some "2024-01-01") none (some "Food"))
            [{ id := 1, amount := 10, category := "food",
               description := "lunch", date := "2024-11-03",
               created_at := "t" }]).insertionSort newestFirst) ∧
      res.count = res.expenses.length ∧
      res.expenses.Sorted newestFirst ∧
      ∀ e ∈ res.expenses,
        e ∈ [({ id := 1, amount := 10, category := "food",
                description := "lunch", date := "2024-11-03",
                created_at := "t" } : Expense)] ∧
        matchesFilters (some "2024-01-01") none (some "Food") e = true :=
  C3_getExpenses
    { rows := [{ id := 1, amount := 10, category := "food",
                 description := "lunch", date := "2024-11-03",
                 created_at := "t" }], seq := 2 }
    (some "2024-01-01") none (some "Food") none
    (fun s hs => by cases hs; decide) (fun _ hs => nomatch hs)
    (fun s hs => by cases hs; decide)

theorem C4_spendingByCategory_witness :
    ∃ res, getSpendingByCategory
        { rows := [{ id := 1, amount := 10, category := "food",
                     description := "a", date := "2024-11-03",
                     created_at := "t" },
                   { id := 2, amount := 20, category := "food",
                     description := "b", date := "2024-11-04",
                     created_at := "t" },
                   { id := 3, amount := 30, category := "transport",
                     description := "c", date := "2024-11-05",
                     created_at := "t" }], seq := 4 }
        none none = .ok res ∧
      res.categories.Sorted byTotalDesc ∧
      res.total_spending = sumAmounts (List.filter (matchesFilters none none none)
        [{ id := 1, amount := 10, category := "food", description := "a",
           date := "2024-11-03", created_at := "t" },
         { id := 2, amount := 20, category := "food", description := "b",
           date := "2024-11-04", created_at := "t" },
         { id := 3, amount := 30, category := "transport", description := "c",
           date := "2024-11-05", created_at := "t" }]) ∧
      (∀ g ∈ res.categories,
        g.percentage = if 0 < res.total_spending
          then toFixed2 (100 * g.total_amount / res.total_spending) else 0) ∧
      (res.total_spending = 0 → ∀ g ∈ res.categories, g.percentage = 0) :=
  C4_spendingByCategory _ none none (fun _ hs => nomatch hs)
    (fun _ hs => nomatch hs)

theorem C5_dateIsValid_witness :
    (isValidDate "2024-11-03" = true ↔ dateIsValidSpec "2024-11-03") ∧
    isValidDate "2024-11-03" = true ∧
    isValidDate "2024-13-01" = false ∧
    isValidDate "2024-02-30" = false ∧
    isValidDate "11/03/2024" = false :=
  C5_dateIsValid "2024-11-03"

theorem C6_filter_validation_witness :
    getExpenses { rows := [], seq := 1 } (some "2024-13-01") none none none
      = .error "Invalid start date format. Use YYYY-MM-DD" :=
  (C6_filter_validation { rows := [], seq := 1 } (some "2024-13-01")
    none none none).1 "2024-13-01" rfl (by decide) (by decide)

theorem C7_id_monotone_witness :
    (assignedIds { rows := [], seq := 1 }
        [.add 10 "food" "x" "2024-01-02" "t", .del 1,
         .add 5 "food" "y" "2024-01-03" "t"]).Pairwise (· < ·) ∧
    ((([] : List Expense).map (·.id)).Nodup →
      (((execOps { rows := [], seq := 1 }
          [.add 10 "food" "x" "2024-01-02" "t", .del 1,
           .add 5 "food" "y" "2024-01-03" "t"]).rows.map (·.id)).Nodup)) :=
  C7_id_monotone { rows := [], seq := 1 }
    [.add 10 "food" "x" "2024-01-02" "t", .del 1,
     .add 5 "food" "y" "2024-01-03" "t"]
    (by intro r hr; simp at hr)

theorem C8_delete_witness :
    (deleteExpense
        { rows := [{ id := 1, amount := 10, category := "food",
                     description := "lunch", date := "2024-11-03",
                     created_at := "t" }], seq := 2 } 7).1
      = .error (notFoundMsg 7) ∧
    (deleteExpense
        { rows := [{ id := 1, amount := 10, category := "food",
                     description := "lunch", date := "2024-11-03",
                     created_at := "t" }], seq := 2 } 7).2
      = { rows := [{ id := 1, amount := 10, category := "food",
                     description := "lunch", date := "2024-11-03",
                     created_at := "t" }], seq := 2 } ∧
    (deleteExpense
        { rows := [{ id := 1, amount := 10, category := "food",
                     description := "lunch", date := "2024-11-03",
                     created_at := "t" }], seq := 2 } 1).1
      = .ok { id := 1, amount := 10, category := "food",
              description := "lunch", date := "2024-11-03",
              created_at := "t" } := by
  refine ⟨?_, ?_, ?_⟩
  · exact ((C8_delete _ 7).1 (by decide)).1
  · exact ((C8_delete _ 7).1 (by decide)).2.2
  · exact (((C8_delete _ 1).2
      { id := 1, amount := 10, category := "food", description := "lunch",
        date := "2024-11-03", created_at := "t" } (by decide))).1

theorem C9_monthlySummary_empty_witness :
    getMonthlySummary
      { rows := [{ id := 1, amount := 10, category := "food",
                   description := "lunch", date := "2024-11-03",
                   created_at := "t" }], seq := 2 } 2025 1
      = .ok { month := getMonthName 1
              year := 2025
              period := monthStart 2025 1 ++ " to " ++ monthEnd 2025 1
              total_transactions := 0
              total_spending := 0
              average_transaction := 0
              category_breakdown := []
              daily_spending := [] } :=
  C9_monthlySummary_empty _ 2025 1 (by decide) (by decide) (by decide)
    (by decide)
    (by intro r hr
        simp only [List.mem_singleton] at hr
        subst hr
        decide)

theorem C10_isValidCategory_typeError_witness :
    isValidCategoryJS (.num 3)
        = .error (.typeError "category.toLowerCase is not a function") ∧
    isValidCategoryJS .null
        = .error (.typeError
            "Cannot read properties of null (reading 'toLowerCase')") ∧
    isValidCategoryJS .object
        = .error (.typeError "category.toLowerCase is not a function") ∧
    addExpenseJS { rows := [], seq := 1 } 7 (.num 3) "x" "2024-01-01" "t"
        = .error (.typeError "category.toLowerCase is not a function") ∧
    addExpenseJS { rows := [], seq := 1 } 7 .null "x" "2024-01-01" "t"
        = .error (.typeError
            "Cannot read properties of null (reading 'toLowerCase')") ∧
    addExpenseJS { rows := [], seq := 1 } 7 .object "x" "2024-01-01" "t"
        = .error (.typeError "category.toLowerCase is not a function") ∧
    (∀ msg, JSError.typeError msg ≠ JSError.error categoryErrMsg) :=
  C10_isValidCategory_typeError { rows := [], seq := 1 } 7 3 "x"
    "2024-01-01" "t" (by decide)

example : isValidDate "2024-13-01" = false := by decide

example : isValidDate "2024-02-30" = false := by decide

example : isValidDate "11/03/2024" = false := by decide

example : isValidDate "2024-02-29" = true := by decide

example : isValidCategory "Food" = true := by decide

example : isValidCategory "xyz" = false := by decide

end Finance
